import Mathlib

/-!
Verification of the Realtime Session Relay and Lifecycle Orchestrator
(kt-pro-api). Shallow embedding of the relay in
`src/services/s3.service.ts` (the current variant: transcript buffering,
`sessionTerminated` flag) and of the session endpoints in
`src/controllers/session.controller.ts`.

Strings are embedded as lists of characters so that every operation
(concatenation, `trim`) is a structurally recursive computable function.
-/

namespace KTPro

/-- JS strings are modelled as lists of characters. -/
abbrev Text := List Char

/-- JS `String.prototype.trim()`: drop whitespace from both ends. -/
def trimText (l : Text) : Text :=
  ((l.dropWhile Char.isWhitespace).reverse.dropWhile Char.isWhitespace).reverse

/-- Speakers of transcript fragments: the code uses the string tags
`employee` (inputTranscription) and `ai` (outputTranscription). -/
inductive Speaker
  | employee
  | ai
deriving DecidableEq, Repr

/-- One persisted transcript chunk `{speaker, text, timestamp}`; the
timestamp is not relevant to the aggregation claims and is omitted. -/
structure Utterance where
  speaker : Speaker
  text : Text
deriving DecidableEq, Repr

/-- The in-memory `transcriptBuffer` variable: `{speaker, text}` or null. -/
structure TBuf where
  speaker : Speaker
  text : Text
deriving DecidableEq, Repr

/-- Aggregator-relevant state of one relay connection:
the `transcriptBuffer` closure variable, the persisted `transcript`
array (db `$push`), and the `transcript` events sent to the browser. -/
structure AggState where
  transcriptBuffer : Option TBuf
  transcript : List Utterance
  emitted : List Utterance
deriving DecidableEq, Repr

/-- `flushTranscriptBuffer` from s3.service.ts: if no buffer, return;
trim the text; if empty after trim, clear the buffer and return;
otherwise `$push` the chunk, send it to the browser, clear the buffer. -/
def flushTranscriptBuffer (st : AggState) : AggState :=
  match st.transcriptBuffer with
  | none => st
  | some b =>
    let t := trimText b.text
    if t = [] then { st with transcriptBuffer := none }
    else
      { transcriptBuffer := none
        transcript := st.transcript ++ [⟨b.speaker, t⟩]
        emitted := st.emitted ++ [⟨b.speaker, t⟩] }

/-- `bufferTranscript(speaker, text)` from s3.service.ts: same speaker
appends to the buffer text; otherwise flush and start a new buffer. -/
def bufferTranscript (sp : Speaker) (text : Text) (st : AggState) : AggState :=
  match st.transcriptBuffer with
  | some b =>
    if b.speaker = sp then
      { st with transcriptBuffer := some ⟨b.speaker, b.text ++ text⟩ }
    else
      { flushTranscriptBuffer st with transcriptBuffer := some ⟨sp, text⟩ }
  | none =>
      { flushTranscriptBuffer st with transcriptBuffer := some ⟨sp, text⟩ }

/-- Events reaching the aggregator: a transcription fragment
(`inputTranscription` / `outputTranscription`), or a flush trigger
(upstream `turnComplete`, explicit `end_session`, or browser close). -/
inductive AggEvent
  | frag (sp : Speaker) (text : Text)
  | flush
deriving DecidableEq, Repr

def aggStep (st : AggState) (e : AggEvent) : AggState :=
  match e with
  | .frag sp t => bufferTranscript sp t st
  | .flush => flushTranscriptBuffer st

def aggInit : AggState := ⟨none, [], []⟩

def aggRun (es : List AggEvent) : AggState :=
  es.foldl aggStep aggInit

/-- Utterance produced from one completed run: the trimmed concatenated
text, or nothing when the text trims to empty. -/
def mkUtt (sp : Speaker) (txt : Text) : Option Utterance :=
  if trimText txt = [] then none else some ⟨sp, trimText txt⟩

/-- Grouping of a fragment list into maximal runs of consecutive
same-speaker fragments: returns (completed runs, final open run). -/
def runsCore : Speaker → List Text → List (Speaker × Text) → List (Speaker × List Text) × (Speaker × List Text)
  | sp, acc, [] => ([], (sp, acc))
  | sp, acc, (s, t) :: rest =>
    if s = sp then runsCore sp (acc ++ [t]) rest
    else
      let r := runsCore s [t] rest
      ((sp, acc) :: r.1, r.2)

/-- All maximal same-speaker runs of a fragment list, in arrival order. -/
def runs : List (Speaker × Text) → List (Speaker × List Text)
  | [] => []
  | (s, t) :: rest =>
    let r := runsCore s [t] rest
    r.1 ++ [r.2]

/-- The runs already completed by a later different-speaker fragment
(all runs except the still-open last one). -/
def completedRuns : List (Speaker × Text) → List (Speaker × List Text)
  | [] => []
  | (s, t) :: rest => (runsCore s [t] rest).1

/-- Utterances the spec expects for a fragment list: one per maximal
same-speaker run with whitespace-only runs dropped. -/
def specUtterances (gs : List (Speaker × List Text)) : List Utterance :=
  gs.filterMap (fun g => mkUtt g.1 g.2.flatten)

/-! ## Frame Change Detector (s3.service.ts: simpleHash, saveFrameIfChanged)

JS 32-bit integer arithmetic: `hash = (hash << 5) - hash + c; hash = hash & hash`
computes `(31 * hash + c)` truncated to a signed 32-bit integer.  Two JS
results are equal exactly when their residues mod 2^32 are equal, so the
hash is embedded as a natural number below 2^32. The payload (a base64
string in the code) is embedded as its list of UTF-16 char codes. -/

def HASH_MOD : Nat := 4294967296

/-- One loop iteration of simpleHash. -/
def hashStep (h c : Nat) : Nat := (31 * h + c) % HASH_MOD

/-- The positions visited by `for (let i = 0; i < len; i += step)`:
the multiples of `step` below `len` (the code guarantees `step ≥ 1`). -/
def sampledIndices (len step : Nat) : List Nat :=
  (List.range len).filter (fun i => i % step = 0)

/-- `simpleHash` from s3.service.ts: `step = max(1, floor(len / 50))`,
initial hash = `len`, folding `(hash << 5) - hash + charCodeAt(i)`
(i.e. `31 * hash + c` mod 2^32) over the sampled positions. -/
def simpleHash (s : List Nat) : Nat :=
  let len := s.length
  let step := max 1 (len / 50)
  (sampledIndices len step).foldl (fun h i => hashStep h (s.getD i 0)) (len % HASH_MOD)

/-- Frame-detector state: the `lastFrameHash` variable and the persisted
`frames` array; a frame reference is recorded as (payload, timestamp). -/
structure FrameState where
  lastFrameHash : Option Nat
  frames : List (List Nat × Nat)
deriving DecidableEq, Repr

/-- `saveFrameIfChanged` from s3.service.ts: hash the payload; if it
equals `lastFrameHash`, skip; otherwise update `lastFrameHash` first,
then attempt the S3 upload — on success `$push` the frame reference, on
failure log and swallow (the `uploadOk` flag models the upload outcome). -/
def saveFrameIfChanged (p : List Nat) (ts : Nat) (uploadOk : Bool) (st : FrameState) : FrameState :=
  if some (simpleHash p) = st.lastFrameHash then st
  else
    let st' := { st with lastFrameHash := some (simpleHash p) }
    if uploadOk then { st' with frames := st'.frames ++ [(p, ts)] } else st'

/-- Running a sequence of incoming frames (payload, timestamp, upload outcome). -/
def runFrames (l : List (List Nat × Nat × Bool)) (st : FrameState) : FrameState :=
  l.foldl (fun s e => saveFrameIfChanged e.1 e.2.1 e.2.2 s) st

/-! ## Session lifecycle documents and controller updates -/

/-- Session lifecycle statuses written anywhere in the code
(models/Session.ts enum plus the `ended` / `cancelled` statuses written
by the relay and by finalizeSessionByInvite). -/
inductive Status
  | pending
  | active
  | processing
  | completed
  | failed
  | ended
  | cancelled
deriving DecidableEq, Repr

/-- The persisted session document fields the claims are about.
Timestamps are naturals, nullable fields are options. -/
structure SessionDoc where
  status : Status
  startedAt : Option Nat
  endedAt : Option Nat
  resumptionHandle : Option (List Char)
  interviewGoal : List Char
  transcript : List Utterance
  frames : List (List Nat × Nat)
  document : Option (List Char)
  documentHtml : Option (List Char)
  audioUrl : Option (List Char)
deriving DecidableEq, Repr

/-- One `$set` update from the relay's lifecycle writes: a status, whether
`endedAt: new Date()` is included, and whether `resumptionHandle: null`
is included. Applying it merges those fields into the stored document. -/
def applyPersist (now : Nat) (status : Status) (setEndedAt clearHandle : Bool)
    (s : SessionDoc) : SessionDoc :=
  { s with
    status := status
    endedAt := if setEndedAt then some now else s.endedAt
    resumptionHandle := if clearHandle then none else s.resumptionHandle }

/-- finalizeSessionByInvite, `action === 'discard'` branch
(session.controller.ts): `$set { status: 'cancelled',
endedAt: session.endedAt || new Date(), resumptionHandle: null }`. -/
def finalizeDiscard (now : Nat) (s : SessionDoc) : SessionDoc :=
  { s with
    status := .cancelled
    endedAt := match s.endedAt with | some e => some e | none => some now
    resumptionHandle := none }

/-- finalizeSessionByInvite, generate branch (session.controller.ts):
`$set { status: 'processing', endedAt: session.endedAt || new Date(),
resumptionHandle: null }`, then fire-and-forget document generation. -/
def finalizeGenerate (now : Nat) (s : SessionDoc) : SessionDoc :=
  { s with
    status := .processing
    endedAt := match s.endedAt with | some e => some e | none => some now
    resumptionHandle := none }

/-- generateSessionDocument (session.controller.ts): the authenticated
re-generate endpoint marks the session `$set { status: 'processing' }`
(no other field is touched). -/
def generateStartUpdate (s : SessionDoc) : SessionDoc :=
  { s with status := .processing }

/-! ## Relay transition system (s3.service.ts: handleSessionWebSocket)

The connection-scoped mutable variables are the state; the externally
visible effects of each handler are emitted as actions. -/

/-- Connection-scoped mutable variables of one relay instance. -/
structure RelayState where
  sessionTerminated : Bool
  explicitEndRequested : Bool
  reconnectAttempts : Nat
  upstreamConnected : Bool
  pendingTimers : Nat
deriving DecidableEq, Repr

/-- Events a live relay instance reacts to. -/
inductive RelayEvent
  | upstreamOpen
  | upstreamClose
  | timerFire
  | clientEndSession
  | clientClose
deriving DecidableEq, Repr

/-- Externally visible effects of the handlers. -/
inductive RelayAction
  | scheduleReconnect (attempt delayMs : Nat)
  | notifyMaxReconnects
  | connectUpstream
  | flushAgg
  | persist (status : Status) (setEndedAt clearHandle : Bool)
  | invokeSynthesis
  | ackEnded
  | sendSetup
deriving DecidableEq, Repr

def MAX_RECONNECTS : Nat := 5

/-- One handler dispatch of handleSessionWebSocket (s3.service.ts):

* `upstreamOpen` — geminiWs.onopen: reset `reconnectAttempts`, send the
  setup handshake and `session_ready`;
* `upstreamClose` — geminiWs.onclose: if `sessionTerminated`, return;
  else if `reconnectAttempts < MAX_RECONNECTS`, increment it and
  `setTimeout(connectToGemini, reconnectAttempts * 2000)`; else send
  `session_ended` with reason `max_reconnects`;
* `timerFire` — a pending reconnect timer runs `connectToGemini`
  (which neither checks the flag nor schedules anything itself);
* `clientEndSession` — the `end_session` branch: set both flags, flush
  the aggregator, close the upstream socket, persist
  `{status: 'ended', endedAt}` (no `resumptionHandle` key), ack with
  `session_ended` reason `user_ended`;
* `clientClose` — browserWs close: set `sessionTerminated`, flush,
  close upstream; if an explicit end was already handled persist
  `{status: 'ended', endedAt}`, otherwise persist
  `{status: 'processing', endedAt, resumptionHandle: null}` and invoke
  `generateDocument` without awaiting it. -/
def relayStep (st : RelayState) (e : RelayEvent) : RelayState × List RelayAction :=
  match e with
  | .upstreamOpen =>
    ({ st with reconnectAttempts := 0, upstreamConnected := true }, [.sendSetup])
  | .upstreamClose =>
    let stc := { st with upstreamConnected := false }
    if st.sessionTerminated then (stc, [])
    else if st.reconnectAttempts < MAX_RECONNECTS then
      ({ stc with
          reconnectAttempts := st.reconnectAttempts + 1
          pendingTimers := st.pendingTimers + 1 },
       [.scheduleReconnect (st.reconnectAttempts + 1) ((st.reconnectAttempts + 1) * 2000)])
    else (stc, [.notifyMaxReconnects])
  | .timerFire =>
    ({ st with pendingTimers := st.pendingTimers - 1 }, [.connectUpstream])
  | .clientEndSession =>
    ({ st with
        explicitEndRequested := true
        sessionTerminated := true
        upstreamConnected := false },
     [.flushAgg, .persist .ended true false, .ackEnded])
  | .clientClose =>
    let st' := { st with sessionTerminated := true, upstreamConnected := false }
    if st.explicitEndRequested then
      (st', [.flushAgg, .persist .ended true false])
    else
      (st', [.flushAgg, .persist .processing true true, .invokeSynthesis])

/-- State after handleSessionWebSocket set up the connection variables. -/
def relayInit : RelayState := ⟨false, false, 0, false, 0⟩

/-- A trace of handler dispatches, accumulating the emitted actions. -/
def relayRun : RelayState → List RelayEvent → RelayState × List RelayAction
  | st, [] => (st, [])
  | st, e :: es =>
    let p := relayStep st e
    let q := relayRun p.1 es
    (q.1, p.2 ++ q.2)

/-! ## Document synthesis trigger (s3.service.ts: generateDocument) -/

/-- generateDocument from s3.service.ts, as a function of the stored
session and the outcome of the synthesis pipeline (OpenAI call,
JSON.parse, documentToHtml — all inside the same try block).  Returns
the stored session after the run together with the number of synthesis
invocations: a missing session or an empty transcript skips synthesis
and changes nothing; a successful synthesis persists `{document,
documentHtml, status: 'completed'}`; any raised error is caught and
persists `{status: 'failed'}` only.  Nothing in the function retries. -/
def generateDocument (synth : Except (List Char) (List Char × List Char))
    (s : Option SessionDoc) : Option SessionDoc × Nat :=
  match s with
  | none => (none, 0)
  | some s =>
    if s.transcript = [] then (some s, 0)
    else
      match synth with
      | .ok d =>
        (some { s with document := some d.1, documentHtml := some d.2, status := .completed }, 1)
      | .error _ => (some { s with status := .failed }, 1)

/-! ## Public invite lookup (session.controller.ts: getSessionByToken) -/

/-- The fields returned by the invite lookup: the stored session with
`transcript`, `frames`, `document` and `interviewGoal` excluded by
`.select('-transcript -frames -document -interviewGoal')`. -/
structure PublicSessionView where
  status : Status
  startedAt : Option Nat
  endedAt : Option Nat
  resumptionHandle : Option (List Char)
  documentHtml : Option (List Char)
  audioUrl : Option (List Char)
deriving DecidableEq, Repr

def toPublicView (s : SessionDoc) : PublicSessionView :=
  { status := s.status
    startedAt := s.startedAt
    endedAt := s.endedAt
    resumptionHandle := s.resumptionHandle
    documentHtml := s.documentHtml
    audioUrl := s.audioUrl }

/-- Outcome of GET /api/sessions/invite/:token. -/
inductive TokenLookup
  | notFound
  | unavailable
  | ok (v : PublicSessionView)
deriving DecidableEq, Repr

/-- getSessionByToken from session.controller.ts: 404 when no session
matches the token; 400 `'This session is no longer available'` when the
status is `completed` or `cancelled`; otherwise 200 with the projected
session. -/
def getSessionByToken (s : Option SessionDoc) : TokenLookup :=
  match s with
  | none => .notFound
  | some s =>
    if s.status = .completed ∨ s.status = .cancelled then .unavailable
    else .ok (toPublicView s)

/-! ## Lemmas and theorems -/

lemma flush_some (sp : Speaker) (txt : Text) (T E : List Utterance) :
    flushTranscriptBuffer ⟨some ⟨sp, txt⟩, T, E⟩
      = ⟨none, T ++ (mkUtt sp txt).toList, E ++ (mkUtt sp txt).toList⟩ := by
  by_cases h : trimText txt = []
  · simp [flushTranscriptBuffer, mkUtt, h]
  · simp [flushTranscriptBuffer, mkUtt, h]

lemma filterMap_cons_toList {α β : Type} (f : α → Option β) (a : α) (l : List α) :
    (a :: l).filterMap f = (f a).toList ++ l.filterMap f := by
  cases h : f a <;> simp [List.filterMap_cons, h]

/-- Folding the fragment events of a list over a state whose open buffer
holds the flattened accumulator reproduces the run grouping: the final
buffer holds the open run and the completed runs are persisted and
emitted in order. -/
lemma agg_frags (fs : List (Speaker × Text)) :
    ∀ (sp : Speaker) (accL : List Text) (T E : List Utterance),
    List.foldl aggStep ⟨some ⟨sp, accL.flatten⟩, T, E⟩ (fs.map (fun f => AggEvent.frag f.1 f.2))
      = ⟨some ⟨(runsCore sp accL fs).2.1, (runsCore sp accL fs).2.2.flatten⟩,
         T ++ specUtterances (runsCore sp accL fs).1,
         E ++ specUtterances (runsCore sp accL fs).1⟩ := by
  induction fs with
  | nil => intro sp accL T E; simp [runsCore, specUtterances]
  | cons f rest ih =>
    intro sp accL T E
    obtain ⟨s, t⟩ := f
    by_cases h : s = sp
    · subst h
      simp only [List.map_cons, List.foldl_cons, aggStep, bufferTranscript, if_pos rfl,
        eq_self_iff_true, if_true]
      rw [show accL.flatten ++ t = (accL ++ [t]).flatten by simp]
      rw [ih s (accL ++ [t]) T E]
      simp [runsCore]
    · have h' : ¬ sp = s := fun hh => h hh.symm
      simp only [List.map_cons, List.foldl_cons, aggStep, bufferTranscript, if_neg h']
      rw [flush_some]
      have hrec := ih s [t] (T ++ (mkUtt sp accL.flatten).toList)
        (E ++ (mkUtt sp accL.flatten).toList)
      simp only [List.flatten_cons, List.flatten_nil, List.append_nil] at hrec
      rw [hrec]
      simp only [runsCore, if_neg h, specUtterances, filterMap_cons_toList, List.append_assoc]

/-- C1 counterexample: the persisted text is the TRIMMED concatenation,
not the concatenation — the fragment " hi" is persisted as "hi"; and an
utterance is persisted as soon as a different-speaker fragment completes
its run, before any flush trigger arrives. -/
theorem c1_counterexample :
    (aggRun [AggEvent.frag .employee [' ', 'h', 'i'], AggEvent.flush]).transcript
        ≠ [⟨Speaker.employee, [' ', 'h', 'i']⟩]
    ∧ (aggRun [AggEvent.frag .employee ['a'], AggEvent.frag .ai ['b']]).transcript
        = [⟨Speaker.employee, ['a']⟩] := by
  decide

/-- C1 (amended): for every fragment sequence, the aggregator persists
one utterance per maximal same-speaker run whose concatenated text does
not trim to empty, carrying the trimmed concatenation, in arrival order;
persisted and emitted utterances coincide; and before the final flush
trigger exactly the runs already completed by a speaker change have been
persisted. -/
theorem c1_aggregated_transcript (fs : List (Speaker × Text)) :
    (aggRun (fs.map (fun f => AggEvent.frag f.1 f.2) ++ [AggEvent.flush])).transcript
        = specUtterances (runs fs)
    ∧ (aggRun (fs.map (fun f => AggEvent.frag f.1 f.2) ++ [AggEvent.flush])).emitted
        = specUtterances (runs fs)
    ∧ (aggRun (fs.map (fun f => AggEvent.frag f.1 f.2))).transcript
        = specUtterances (completedRuns fs) := by
  cases fs with
  | nil =>
    refine ⟨?_, ?_, ?_⟩ <;>
      simp [aggRun, aggInit, aggStep, flushTranscriptBuffer, runs, completedRuns,
        specUtterances]
  | cons f rest =>
    obtain ⟨s, t⟩ := f
    have hfold := agg_frags rest s [t] [] []
    simp only [List.flatten_cons, List.flatten_nil, List.append_nil, List.nil_append] at hfold
    have hstart : aggStep aggInit (AggEvent.frag s t) = ⟨some ⟨s, t⟩, [], []⟩ := by
      simp [aggStep, bufferTranscript, aggInit, flushTranscriptBuffer]
    have hfrags : List.foldl aggStep aggInit
        (List.map (fun f => AggEvent.frag f.1 f.2) ((s, t) :: rest))
        = ⟨some ⟨(runsCore s [t] rest).2.1, (runsCore s [t] rest).2.2.flatten⟩,
           specUtterances (runsCore s [t] rest).1,
           specUtterances (runsCore s [t] rest).1⟩ := by
      rw [List.map_cons, List.foldl_cons, hstart, hfold]
    refine ⟨?_, ?_, ?_⟩
    · show (List.foldl aggStep aggInit _).transcript = _
      rw [List.foldl_append, hfrags, List.foldl_cons, List.foldl_nil]
      show (flushTranscriptBuffer _).transcript = _
      rw [flush_some]
      simp [runs, specUtterances, List.filterMap_append, filterMap_cons_toList]
    · show (List.foldl aggStep aggInit _).emitted = _
      rw [List.foldl_append, hfrags, List.foldl_cons, List.foldl_nil]
      show (flushTranscriptBuffer _).emitted = _
      rw [flush_some]
      simp [runs, specUtterances, List.filterMap_append, filterMap_cons_toList]
    · show (List.foldl aggStep aggInit _).transcript = _
      rw [hfrags]
      simp [completedRuns]

/-- C8: flushing a buffer whose text trims to the empty string persists
no utterance and emits nothing, and the buffer is cleared by every
flush. -/
theorem c8_flush_whitespace (b : TBuf) (T E : List Utterance)
    (h : trimText b.text = []) :
    flushTranscriptBuffer ⟨some b, T, E⟩ = ⟨none, T, E⟩
    ∧ ∀ st : AggState, (flushTranscriptBuffer st).transcriptBuffer = none := by
  constructor
  · simp [flushTranscriptBuffer, h]
  · intro st
    obtain ⟨buf, T', E'⟩ := st
    cases buf with
    | none => rfl
    | some b' =>
      by_cases h' : trimText b'.text = [] <;> simp [flushTranscriptBuffer, h']

/-- C8 witness: a concrete whitespace-only buffer. -/
theorem c8_flush_whitespace_witness :
    trimText (TBuf.text ⟨Speaker.employee, [' ', ' ']⟩) = []
    ∧ (flushTranscriptBuffer ⟨some ⟨Speaker.employee, [' ', ' ']⟩, [], []⟩ = ⟨none, [], []⟩
       ∧ ∀ st : AggState, (flushTranscriptBuffer st).transcriptBuffer = none) :=
  ⟨by decide, c8_flush_whitespace ⟨Speaker.employee, [' ', ' ']⟩ [] [] (by decide)⟩

lemma relayStep_term (st : RelayState) (e : RelayEvent)
    (h : st.sessionTerminated = true) :
    (relayStep st e).1.sessionTerminated = true
    ∧ ∀ n d, RelayAction.scheduleReconnect n d ∉ (relayStep st e).2 := by
  cases e
  case upstreamOpen => simp [relayStep, h]
  case upstreamClose => simp [relayStep, h]
  case timerFire => simp [relayStep, h]
  case clientEndSession => simp [relayStep]
  case clientClose =>
    by_cases hx : st.explicitEndRequested <;> simp [relayStep, hx]

/-- C2: once `sessionTerminated` is set, every subsequent handler
dispatch — including pending reconnect timers firing — leaves the flag
set and never emits a reconnect-scheduling action. -/
theorem c2_no_reconnect_after_termination (st : RelayState) (es : List RelayEvent)
    (h : st.sessionTerminated = true) :
    (relayRun st es).1.sessionTerminated = true
    ∧ ∀ n d, RelayAction.scheduleReconnect n d ∉ (relayRun st es).2 := by
  induction es generalizing st with
  | nil => exact ⟨h, by simp [relayRun]⟩
  | cons e es ih =>
    obtain ⟨h1, h2⟩ := relayStep_term st e h
    obtain ⟨h3, h4⟩ := ih (relayStep st e).1 h1
    refine ⟨by simpa [relayRun] using h3, fun n d hmem => ?_⟩
    simp only [relayRun, List.mem_append] at hmem
    rcases hmem with hm | hm
    · exact h2 n d hm
    · exact h4 n d hm

/-- C2 witness: a terminated relay with a pending timer; the timer fires
and the resulting upstream close schedules nothing. -/
theorem c2_witness :
    (⟨true, false, 0, false, 1⟩ : RelayState).sessionTerminated = true
    ∧ ((relayRun ⟨true, false, 0, false, 1⟩
          [RelayEvent.timerFire, RelayEvent.upstreamClose]).1.sessionTerminated = true
       ∧ ∀ n d, RelayAction.scheduleReconnect n d
          ∉ (relayRun ⟨true, false, 0, false, 1⟩
              [RelayEvent.timerFire, RelayEvent.upstreamClose]).2) :=
  ⟨rfl, c2_no_reconnect_after_termination _ _ rfl⟩

/-- C4: on client disconnect without a previously handled explicit end,
the relay sets `sessionTerminated`, closes upstream, and emits exactly:
flush the aggregator, persist `processing` with `endedAt` set and
`resumptionHandle` cleared, and a single fire-and-forget synthesis
invocation (the handler never awaits it). -/
theorem c4_client_disconnect (st : RelayState) (h : st.explicitEndRequested = false) :
    (relayStep st .clientClose).1.sessionTerminated = true
    ∧ (relayStep st .clientClose).1.upstreamConnected = false
    ∧ (relayStep st .clientClose).2
        = [.flushAgg, .persist .processing true true, .invokeSynthesis]
    ∧ (relayStep st .clientClose).2.count RelayAction.invokeSynthesis = 1
    ∧ ∀ (now : Nat) (s : SessionDoc),
        applyPersist now .processing true true s
          = { s with status := .processing, endedAt := some now, resumptionHandle := none } := by
  refine ⟨?_, ?_, ?_, ?_, ?_⟩ <;> simp [relayStep, h, applyPersist]

/-- C4 witness: a fresh relay instance receiving a client disconnect. -/
theorem c4_client_disconnect_witness :
    relayInit.explicitEndRequested = false
    ∧ ((relayStep relayInit .clientClose).1.sessionTerminated = true
       ∧ (relayStep relayInit .clientClose).1.upstreamConnected = false
       ∧ (relayStep relayInit .clientClose).2
           = [.flushAgg, .persist .processing true true, .invokeSynthesis]
       ∧ (relayStep relayInit .clientClose).2.count RelayAction.invokeSynthesis = 1
       ∧ ∀ (now : Nat) (s : SessionDoc),
           applyPersist now .processing true true s
             = { s with status := .processing, endedAt := some now, resumptionHandle := none }) :=
  ⟨rfl, c4_client_disconnect relayInit rfl⟩

lemma relayStep_att (st : RelayState) (e : RelayEvent)
    (h : st.reconnectAttempts ≤ MAX_RECONNECTS) :
    (relayStep st e).1.reconnectAttempts ≤ MAX_RECONNECTS := by
  cases e
  case upstreamOpen => simp [relayStep, MAX_RECONNECTS]
  case upstreamClose =>
    by_cases h1 : st.sessionTerminated <;>
      by_cases h2 : st.reconnectAttempts < MAX_RECONNECTS <;>
        simp [relayStep, h1, h2] <;> omega
  case timerFire => simpa [relayStep] using h
  case clientEndSession => simpa [relayStep] using h
  case clientClose =>
    by_cases hx : st.explicitEndRequested <;> simpa [relayStep, hx] using h

lemma relayStep_sched (st : RelayState) (e : RelayEvent) (n d : Nat)
    (hm : RelayAction.scheduleReconnect n d ∈ (relayStep st e).2) :
    n = st.reconnectAttempts + 1 ∧ d = n * 2000
      ∧ st.reconnectAttempts < MAX_RECONNECTS := by
  cases e
  case upstreamOpen => simp [relayStep] at hm
  case upstreamClose =>
    by_cases h1 : st.sessionTerminated <;>
      by_cases h2 : st.reconnectAttempts < MAX_RECONNECTS <;>
        simp [relayStep, h1, h2] at hm
    exact ⟨hm.1, by rw [hm.1]; exact hm.2, h2⟩
  case timerFire => simp [relayStep] at hm
  case clientEndSession => simp [relayStep] at hm
  case clientClose =>
    by_cases hx : st.explicitEndRequested <;> simp [relayStep, hx] at hm

lemma relayRun_bound (es : List RelayEvent) :
    ∀ st : RelayState, st.reconnectAttempts ≤ MAX_RECONNECTS →
    (relayRun st es).1.reconnectAttempts ≤ MAX_RECONNECTS
    ∧ ∀ n d, RelayAction.scheduleReconnect n d ∈ (relayRun st es).2 →
        1 ≤ n ∧ n ≤ MAX_RECONNECTS ∧ d = n * 2000 := by
  induction es with
  | nil => intro st h; exact ⟨h, by simp [relayRun]⟩
  | cons e es ih =>
    intro st h
    obtain ⟨h1, h2⟩ := ih (relayStep st e).1 (relayStep_att st e h)
    refine ⟨by simpa [relayRun] using h1, fun n d hmem => ?_⟩
    simp only [relayRun, List.mem_append] at hmem
    rcases hmem with hm | hm
    · obtain ⟨hn, hd, hlt⟩ := relayStep_sched st e n d hm
      exact ⟨by omega, by omega, hd⟩
    · exact h2 n d hm

/-- C5: along every trace from a fresh relay instance the reconnect
counter never exceeds 5; every scheduled reconnect is the Nth
consecutive attempt for some 1 ≤ N ≤ 5 and is delayed exactly
N × 2000 ms; and an upstream close at the ceiling only notifies the
client with `session_ended` reason `max_reconnects`, scheduling
nothing. -/
theorem c5_reconnect_ceiling_and_backoff (es : List RelayEvent) :
    (relayRun relayInit es).1.reconnectAttempts ≤ MAX_RECONNECTS
    ∧ (∀ n d, RelayAction.scheduleReconnect n d ∈ (relayRun relayInit es).2 →
        1 ≤ n ∧ n ≤ MAX_RECONNECTS ∧ d = n * 2000)
    ∧ ∀ st : RelayState, st.reconnectAttempts = MAX_RECONNECTS →
        st.sessionTerminated = false →
        relayStep st .upstreamClose
          = ({ st with upstreamConnected := false }, [.notifyMaxReconnects]) := by
  obtain ⟨h1, h2⟩ := relayRun_bound es relayInit (by simp [relayInit, MAX_RECONNECTS])
  refine ⟨h1, h2, fun st hceil hterm => ?_⟩
  simp [relayStep, hterm, hceil]

/-- C5 witness: one upstream failure schedules attempt 1 after 2000 ms;
a relay at the ceiling is only notified. -/
theorem c5_reconnect_witness :
    (relayRun relayInit [RelayEvent.upstreamClose]).1.reconnectAttempts ≤ MAX_RECONNECTS
    ∧ (1 ≤ 1 ∧ 1 ≤ MAX_RECONNECTS ∧ 2000 = 1 * 2000)
    ∧ relayStep ⟨false, false, 5, false, 0⟩ .upstreamClose
        = (⟨false, false, 5, false, 0⟩, [RelayAction.notifyMaxReconnects]) :=
  ⟨(c5_reconnect_ceiling_and_backoff [RelayEvent.upstreamClose]).1,
   (c5_reconnect_ceiling_and_backoff [RelayEvent.upstreamClose]).2.1 1 2000 (by decide),
   (c5_reconnect_ceiling_and_backoff []).2.2 ⟨false, false, 5, false, 0⟩ rfl rfl⟩

/-- C3 counterexample: the `end_session` branch persists
`{status: 'ended', endedAt}` WITHOUT a `resumptionHandle: null` key, so
a session ending explicitly keeps its stale resumption handle. -/
theorem c3_counterexample :
    (relayStep relayInit .clientEndSession).2
        = [.flushAgg, .persist .ended true false, .ackEnded]
    ∧ (applyPersist 7 .ended true false
        ⟨.active, none, none, some ['h'], [], [], [], none, none, none⟩).resumptionHandle
        = some ['h']
    ∧ (applyPersist 7 .ended true false
        ⟨.active, none, none, some ['h'], [], [], [], none, none, none⟩).resumptionHandle
        ≠ none := by
  decide

/-- C3 (amended): the explicit end-of-session branch sets both
termination flags, flushes the aggregator, closes upstream, and
persists status `ended` with `endedAt` set but `resumptionHandle`
UNCHANGED; the transitions into `processing` (relay disconnect and
finalize generate) and into `cancelled` (finalize discard) do clear
`resumptionHandle`, while the `ended` transitions and the authenticated
re-generate endpoint's `processing` transition leave it untouched. -/
theorem c3_end_session_lifecycle (st : RelayState) (now : Nat) (s : SessionDoc) :
    (relayStep st .clientEndSession).1.sessionTerminated = true
    ∧ (relayStep st .clientEndSession).1.explicitEndRequested = true
    ∧ (relayStep st .clientEndSession).1.upstreamConnected = false
    ∧ (relayStep st .clientEndSession).2
        = [.flushAgg, .persist .ended true false, .ackEnded]
    ∧ (applyPersist now .ended true false s).status = .ended
    ∧ (applyPersist now .ended true false s).endedAt = some now
    ∧ (applyPersist now .ended true false s).resumptionHandle = s.resumptionHandle
    ∧ (applyPersist now .processing true true s).resumptionHandle = none
    ∧ (finalizeDiscard now s).status = .cancelled
    ∧ (finalizeDiscard now s).resumptionHandle = none
    ∧ (finalizeGenerate now s).status = .processing
    ∧ (finalizeGenerate now s).resumptionHandle = none
    ∧ (generateStartUpdate s).resumptionHandle = s.resumptionHandle := by
  refine ⟨rfl, rfl, rfl, rfl, rfl, rfl, rfl, rfl, rfl, rfl, rfl, rfl, rfl⟩

/-- C7: when the synthesis pipeline raises, generateDocument persists
status `failed` only — document and transcript are untouched — and the
single synthesis invocation is not retried. -/
theorem c7_synthesis_failure (s : SessionDoc) (e : List Char)
    (h : s.transcript ≠ []) :
    (generateDocument (Except.error e) (some s)).1 = some { s with status := .failed }
    ∧ ({ s with status := Status.failed } : SessionDoc).document = s.document
    ∧ ({ s with status := Status.failed } : SessionDoc).transcript = s.transcript
    ∧ (generateDocument (Except.error e) (some s)).2 = 1 := by
  refine ⟨?_, rfl, rfl, ?_⟩ <;> simp [generateDocument, h]

/-- C7 witness: a session with a one-chunk transcript and a failing
synthesis call. -/
theorem c7_synthesis_failure_witness :
    (SessionDoc.transcript
        ⟨.processing, none, none, none, [], [⟨Speaker.employee, ['x']⟩], [], none, none, none⟩ ≠ [])
    ∧ ((generateDocument (Except.error ['e'])
          (some ⟨.processing, none, none, none, [], [⟨Speaker.employee, ['x']⟩], [], none, none, none⟩)).1
        = some ⟨.failed, none, none, none, [], [⟨Speaker.employee, ['x']⟩], [], none, none, none⟩
       ∧ ([⟨Speaker.employee, ['x']⟩] : List Utterance) = [⟨Speaker.employee, ['x']⟩]
       ∧ ([⟨Speaker.employee, ['x']⟩] : List Utterance) = [⟨Speaker.employee, ['x']⟩]
       ∧ (generateDocument (Except.error ['e'])
            (some ⟨.processing, none, none, none, [], [⟨Speaker.employee, ['x']⟩], [], none, none, none⟩)).2 = 1) := by
  refine ⟨by decide, ?_⟩
  have := c7_synthesis_failure
    ⟨.processing, none, none, none, [], [⟨Speaker.employee, ['x']⟩], [], none, none, none⟩
    ['e'] (by decide)
  exact ⟨this.1, rfl, rfl, this.2.2.2⟩

/-- C9: the public invite lookup rejects a found session exactly when
its status is `completed` or `cancelled`; every other status — `ended`,
`failed`, `processing` included — is returned with `transcript`,
`frames`, `document` and `interviewGoal` projected away; a missing
token is a 404. -/
theorem c9_invite_lookup (s : SessionDoc) :
    (getSessionByToken (some s) = .unavailable
        ↔ s.status = .completed ∨ s.status = .cancelled)
    ∧ (s.status ≠ .completed → s.status ≠ .cancelled →
        getSessionByToken (some s) = .ok (toPublicView s))
    ∧ getSessionByToken none = .notFound := by
  refine ⟨?_, ?_, rfl⟩
  · by_cases h : s.status = .completed ∨ s.status = .cancelled <;>
      simp [getSessionByToken, h]
  · intro h1 h2
    simp [getSessionByToken, h1, h2]

/-- C9 witness: an `ended` session is returned (projected), a
`completed` one is rejected. -/
theorem c9_invite_lookup_witness :
    ((getSessionByToken (some ⟨.ended, none, none, none, [], [], [], none, none, none⟩)
        = .unavailable
      ↔ (⟨.ended, none, none, none, [], [], [], none, none, none⟩ : SessionDoc).status = .completed
        ∨ (⟨.ended, none, none, none, [], [], [], none, none, none⟩ : SessionDoc).status = .cancelled)
     ∧ Status.ended ≠ Status.completed
     ∧ Status.ended ≠ Status.cancelled
     ∧ getSessionByToken (some ⟨.ended, none, none, none, [], [], [], none, none, none⟩)
        = .ok (toPublicView ⟨.ended, none, none, none, [], [], [], none, none, none⟩)) := by
  have h := c9_invite_lookup ⟨.ended, none, none, none, [], [], [], none, none, none⟩
  exact ⟨h.1, by decide, by decide, h.2.1 (by decide) (by decide)⟩

lemma hashStep_lt (h c : Nat) : hashStep h c < HASH_MOD :=
  Nat.mod_lt _ (by norm_num [HASH_MOD])

lemma hashStep_inj (c : Nat) {h1 h2 : Nat} (hh1 : h1 < HASH_MOD) (hh2 : h2 < HASH_MOD)
    (he : hashStep h1 c = hashStep h2 c) : h1 = h2 := by
  have hmod : 31 * h1 + c ≡ 31 * h2 + c [MOD HASH_MOD] := he
  have h31 : 31 * h1 ≡ 31 * h2 [MOD HASH_MOD] := hmod.add_right_cancel' c
  have hco : Nat.gcd HASH_MOD 31 = 1 := by decide
  have h12 : h1 ≡ h2 [MOD HASH_MOD] := Nat.ModEq.cancel_left_of_coprime hco h31
  calc h1 = h1 % HASH_MOD := (Nat.mod_eq_of_lt hh1).symm
    _ = h2 % HASH_MOD := h12
    _ = h2 := Nat.mod_eq_of_lt hh2

lemma foldl_hash_lt (cs : List Nat) : ∀ h : Nat, h < HASH_MOD →
    cs.foldl hashStep h < HASH_MOD := by
  induction cs with
  | nil => intro h hh; simpa using hh
  | cons c cs ih => intro h hh; simpa using ih _ (hashStep_lt h c)

lemma foldl_hash_inj (cs : List Nat) : ∀ {h1 h2 : Nat}, h1 < HASH_MOD → h2 < HASH_MOD →
    cs.foldl hashStep h1 = cs.foldl hashStep h2 → h1 = h2 := by
  induction cs with
  | nil => intro h1 h2 _ _ he; simpa using he
  | cons c cs ih =>
    intro h1 h2 hh1 hh2 he
    exact hashStep_inj c hh1 hh2
      (ih (hashStep_lt h1 c) (hashStep_lt h2 c) (by simpa using he))

lemma simpleHash_foldl_chars (s : List Nat) :
    simpleHash s
      = ((sampledIndices s.length (max 1 (s.length / 50))).map (fun i => s.getD i 0)).foldl
          hashStep (s.length % HASH_MOD) := by
  simp [simpleHash, List.foldl_map]

/-- Two payloads of equal length that agree at every sampled position
except one (where their char codes differ) get different fingerprints:
each hash-mixing step is injective modulo 2^32 because 31 is coprime
to 2^32. -/
lemma simpleHash_ne_of_sampled_diff (p q : List Nat)
    (hlen : p.length = q.length)
    (hp : ∀ c ∈ p, c < 65536) (hq : ∀ c ∈ q, c < 65536)
    (j : Nat) (hjmem : j ∈ sampledIndices p.length (max 1 (p.length / 50)))
    (hne : p.getD j 0 ≠ q.getD j 0)
    (hagree : ∀ i ∈ sampledIndices p.length (max 1 (p.length / 50)),
        i ≠ j → p.getD i 0 = q.getD i 0) :
    simpleHash p ≠ simpleHash q := by
  intro hcontra
  rw [simpleHash_foldl_chars p, simpleHash_foldl_chars q, ← hlen] at hcontra
  obtain ⟨l1, l2, hsplit⟩ := List.append_of_mem hjmem
  have hnodupL : (sampledIndices p.length (max 1 (p.length / 50))).Nodup :=
    (List.nodup_range _).filter _
  rw [hsplit] at hcontra hnodupL
  obtain ⟨hn1, hn2, hdisj⟩ := List.nodup_append.mp hnodupL
  have hj1 : j ∉ l1 := fun hmem => hdisj hmem (List.mem_cons_self j l2)
  have hj2 : j ∉ l2 := (List.nodup_cons.mp hn2).1
  have hjlen : j < p.length := List.mem_range.mp (List.mem_filter.mp hjmem).1
  have hmem1 : ∀ i ∈ l1, p.getD i 0 = q.getD i 0 := fun i hi =>
    hagree i (by rw [hsplit]; exact List.mem_append_left _ hi)
      (fun hij => hj1 (hij ▸ hi))
  have hmem2 : ∀ i ∈ l2, p.getD i 0 = q.getD i 0 := fun i hi =>
    hagree i (by rw [hsplit]; exact List.mem_append_right _ (List.mem_cons_of_mem _ hi))
      (fun hij => hj2 (hij ▸ hi))
  have hmap1 : l1.map (fun i => p.getD i 0) = l1.map (fun i => q.getD i 0) :=
    List.map_congr_left hmem1
  have hmap2 : l2.map (fun i => p.getD i 0) = l2.map (fun i => q.getD i 0) :=
    List.map_congr_left hmem2
  rw [List.map_append, List.map_append, List.map_cons, List.map_cons,
    List.foldl_append, List.foldl_append, List.foldl_cons, List.foldl_cons,
    ← hmap1, ← hmap2] at hcontra
  have hstep_eq := foldl_hash_inj (l2.map (fun i => p.getD i 0))
    (hashStep_lt _ _) (hashStep_lt _ _) hcontra
  set A := (l1.map (fun i => p.getD i 0)).foldl hashStep (p.length % HASH_MOD) with hA
  have hmod : 31 * A + p.getD j 0 ≡ 31 * A + q.getD j 0 [MOD HASH_MOD] := hstep_eq
  have hcc : p.getD j 0 ≡ q.getD j 0 [MOD HASH_MOD] := hmod.add_left_cancel' (31 * A)
  have h65 : (65536 : Nat) < HASH_MOD := by norm_num [HASH_MOD]
  have hpj : p.getD j 0 < 65536 := by
    have hmem : p.getD j 0 ∈ p := by
      rw [List.getD_eq_getElem p 0 hjlen]; exact List.getElem_mem _
    exact hp _ hmem
  have hqj : q.getD j 0 < 65536 := by
    have hjq : j < q.length := hlen ▸ hjlen
    have hmem : q.getD j 0 ∈ q := by
      rw [List.getD_eq_getElem q 0 hjq]; exact List.getElem_mem _
    exact hq _ hmem
  exact hne (by
    rw [← Nat.mod_eq_of_lt (lt_trans hpj h65), ← Nat.mod_eq_of_lt (lt_trans hqj h65)]
    exact hcc)

lemma save_same_hash (e : List Nat) (ts : Nat) (b : Bool) (st : FrameState)
    (h : st.lastFrameHash = some (simpleHash e)) :
    saveFrameIfChanged e ts b st = st := by
  simp [saveFrameIfChanged, h]

lemma save_twice (r : List Nat) (ts ts' : Nat) (b : Bool) (st : FrameState) :
    saveFrameIfChanged r ts' b (saveFrameIfChanged r ts true st)
      = saveFrameIfChanged r ts true st := by
  apply save_same_hash
  unfold saveFrameIfChanged
  by_cases h : some (simpleHash r) = st.lastFrameHash
  · rw [if_pos h]; exact h.symm
  · rw [if_neg h]; rfl

lemma runFrames_fixed (l : List (List Nat × Nat × Bool)) (hsh : Nat) :
    ∀ st : FrameState, st.lastFrameHash = some hsh →
    (∀ e ∈ l, simpleHash e.1 = hsh) → runFrames l st = st := by
  induction l with
  | nil => intro st _ _; rfl
  | cons e l ih =>
    intro st h hall
    have hskip : saveFrameIfChanged e.1 e.2.1 e.2.2 st = st :=
      save_same_hash _ _ _ _ (by rw [h, hall e (List.mem_cons_self e l)])
    have hstep : runFrames (e :: l) st
        = runFrames l (saveFrameIfChanged e.1 e.2.1 e.2.2 st) := rfl
    rw [hstep, hskip]
    exact ih st h (fun x hx => hall x (List.mem_cons_of_mem _ hx))

set_option maxRecDepth 10000

/-- C6 counterexample: two distinct 100-byte payloads that differ only
at (unsampled) position 1 share a fingerprint, so the second is
discarded and only ONE frame reference is stored; and the payloads
[1891] and [0, 0] of different lengths share the fingerprint 1922. -/
theorem c6_counterexample :
    (65 :: 66 :: List.replicate 98 65 : List Nat) ≠ List.replicate 100 65
    ∧ (saveFrameIfChanged (65 :: 66 :: List.replicate 98 65) 1 true
        (saveFrameIfChanged (List.replicate 100 65) 0 true ⟨none, []⟩)).frames.length = 1
    ∧ simpleHash [1891] = simpleHash [0, 0]
    ∧ ([1891] : List Nat).length ≠ ([0, 0] : List Nat).length := by
  decide

/-- C6 (amended): feeding the same bytes twice in a row stores exactly
one frame reference (the second call is a no-op); two consecutive
payloads of equal length, whose char codes are below 2^16 and which
differ at exactly one sampled position, get distinct fingerprints and
are both stored — but payloads differing only at unsampled positions,
or of different lengths, may collide. -/
theorem c6_frame_dedup (p q : List Nat) (hlen : p.length = q.length)
    (hp : ∀ c ∈ p, c < 65536) (hq : ∀ c ∈ q, c < 65536)
    (hdiff : ∃ j ∈ sampledIndices p.length (max 1 (p.length / 50)),
        p.getD j 0 ≠ q.getD j 0
        ∧ ∀ i ∈ sampledIndices p.length (max 1 (p.length / 50)),
            i ≠ j → p.getD i 0 = q.getD i 0) :
    simpleHash p ≠ simpleHash q
    ∧ (∀ (r : List Nat) (ts ts' : Nat) (b : Bool) (st : FrameState),
        saveFrameIfChanged r ts' b (saveFrameIfChanged r ts true st)
          = saveFrameIfChanged r ts true st)
    ∧ ∀ ts1 ts2 : Nat,
        (saveFrameIfChanged q ts2 true (saveFrameIfChanged p ts1 true ⟨none, []⟩)).frames
          = [(p, ts1), (q, ts2)] := by
  obtain ⟨j, hjm, hne, hag⟩ := hdiff
  have hne' := simpleHash_ne_of_sampled_diff p q hlen hp hq j hjm hne hag
  refine ⟨hne', fun r ts ts' b st => save_twice r ts ts' b st, fun ts1 ts2 => ?_⟩
  have h1 : saveFrameIfChanged p ts1 true ⟨none, []⟩
      = ⟨some (simpleHash p), [(p, ts1)]⟩ := by
    simp [saveFrameIfChanged]
  rw [h1]
  have h2 : ¬ (some (simpleHash q) = some (simpleHash p)) := by
    intro hcq
    exact hne' (Option.some.inj hcq).symm
  simp [saveFrameIfChanged, h2]

/-- C6 witness: the length-2 payloads [0, 1] and [0, 2] differ at the
sampled position 1 and are both stored. -/
theorem c6_frame_dedup_witness :
    ([0, 1] : List Nat).length = ([0, 2] : List Nat).length
    ∧ (∀ c ∈ ([0, 1] : List Nat), c < 65536)
    ∧ (∀ c ∈ ([0, 2] : List Nat), c < 65536)
    ∧ (∃ j ∈ sampledIndices ([0, 1] : List Nat).length
          (max 1 (([0, 1] : List Nat).length / 50)),
        ([0, 1] : List Nat).getD j 0 ≠ ([0, 2] : List Nat).getD j 0
        ∧ ∀ i ∈ sampledIndices ([0, 1] : List Nat).length
              (max 1 (([0, 1] : List Nat).length / 50)),
            i ≠ j → ([0, 1] : List Nat).getD i 0 = ([0, 2] : List Nat).getD i 0)
    ∧ simpleHash [0, 1] ≠ simpleHash [0, 2]
    ∧ (saveFrameIfChanged [0, 2] 1 true
        (saveFrameIfChanged [0, 1] 0 true ⟨none, []⟩)).frames
        = [([0, 1], 0), ([0, 2], 1)] := by
  refine ⟨by decide, by decide, by decide, by decide, ?_, ?_⟩
  · exact (c6_frame_dedup [0, 1] [0, 2] (by decide) (by decide) (by decide) (by decide)).1
  · exact (c6_frame_dedup [0, 1] [0, 2] (by decide) (by decide) (by decide) (by decide)).2.2 0 1

/-- C10 counterexample: after a failed upload of payload [65], an
intervening different frame [66] resets the fingerprint, and a later
arrival of [65] IS stored — its content is not suppressed for the rest
of the connection. -/
theorem c10_counterexample :
    (runFrames [([65], 0, false), ([66], 1, true), ([65], 2, true)] ⟨none, []⟩).frames
      = [([66], 1), ([65], 2)] := by
  decide

/-- C10 (amended): the fingerprint is updated before the upload is
attempted, so a failed upload stores nothing yet leaves the payload's
fingerprint as last-seen; while every subsequent payload carries that
same fingerprint (identical bytes in particular), nothing further is
stored or retried — the suppression lasts only until a
different-fingerprint frame is accepted. -/
theorem c10_failed_upload_suppression (p : List Nat) (ts : Nat) (st : FrameState)
    (l : List (List Nat × Nat × Bool))
    (hl : ∀ e ∈ l, simpleHash e.1 = simpleHash p) :
    (saveFrameIfChanged p ts false st).lastFrameHash = some (simpleHash p)
    ∧ (saveFrameIfChanged p ts false st).frames = st.frames
    ∧ runFrames l (saveFrameIfChanged p ts false st) = saveFrameIfChanged p ts false st := by
  have h1 : (saveFrameIfChanged p ts false st).lastFrameHash = some (simpleHash p) := by
    unfold saveFrameIfChanged
    by_cases h : some (simpleHash p) = st.lastFrameHash
    · rw [if_pos h]; exact h.symm
    · rw [if_neg h]; rfl
  have h2 : (saveFrameIfChanged p ts false st).frames = st.frames := by
    unfold saveFrameIfChanged
    by_cases h : some (simpleHash p) = st.lastFrameHash
    · rw [if_pos h]
    · rw [if_neg h]; rfl
  exact ⟨h1, h2, runFrames_fixed l (simpleHash p) _ h1 hl⟩

/-- C10 witness: payload [65] fails to upload; a later identical frame
is discarded. -/
theorem c10_failed_upload_suppression_witness :
    (∀ e ∈ ([([65], 5, true)] : List (List Nat × Nat × Bool)),
        simpleHash e.1 = simpleHash [65])
    ∧ ((saveFrameIfChanged [65] 0 false ⟨none, []⟩).lastFrameHash = some (simpleHash [65])
       ∧ (saveFrameIfChanged [65] 0 false ⟨none, []⟩).frames = []
       ∧ runFrames [([65], 5, true)] (saveFrameIfChanged [65] 0 false ⟨none, []⟩)
           = saveFrameIfChanged [65] 0 false ⟨none, []⟩) :=
  ⟨by decide,
   c10_failed_upload_suppression [65] 0 ⟨none, []⟩ [([65], 5, true)] (by decide)⟩

end KTPro
